import Mathlib

/-!
Verification development for the simple database plugin: a file-persisted
tree of directories, songs and playlists with an open/load/fallback/save
lifecycle, a filesystem usability checker, and a selection-driven visitor
traversal.  The definitions below are a shallow embedding of
`src/db/SimpleDatabasePlugin.cxx`; collaborators whose sources are not in
the repository snapshot (`directory.c`, `locate.c`, the save/load codec)
are modelled from the specification and marked as such.  Filesystem
observations and codec outcomes are passed in explicitly, so every
function is pure and executable.
-/

/-- Modelled from the spec: the `song` record of `directory.h`/`song.h`
(not in the snapshot).  Only the uri matters to the claims; tags,
duration and per-song mtime are irrelevant here. -/
structure Song where
  uri : String
deriving Repr, DecidableEq

/-- Modelled from the spec: the `directory` node of `directory.h` (not in
the snapshot) — a name, ordered child directories, songs and playlists.
The parent back-reference is representation-only and omitted. -/
inductive Directory : Type where
  | node (dname : String) (children : List Directory)
         (songs : List Song) (playlists : List String)
deriving Repr

def Directory.dirName : Directory → String
  | .node n _ _ _ => n

def Directory.children : Directory → List Directory
  | .node _ cs _ _ => cs

def Directory.songs : Directory → List Song
  | .node _ _ ss _ => ss

def Directory.playlists : Directory → List String
  | .node _ _ _ ps => ps

/-- `directory_new_root()`: a fresh root with empty name and no contents. -/
def Directory.newRoot : Directory := .node "" [] [] []

/-- The relevant part of a successful `stat` observation. -/
structure FileStat where
  isDirectory : Bool
  isRegular : Bool
deriving Repr, DecidableEq

/-- A snapshot of the filesystem observations `SimpleDatabase::Check`
makes about the configured backing path: `access(path, F_OK)`,
`stat(dirname(path))`, `access(dirname(path), X_OK | W_OK)`,
`stat(path)`, and `access(path, R_OK | W_OK)`. -/
structure FsView where
  pathExists : Bool
  parentStat : Option FileStat
  parentTraversableWritable : Bool
  pathStat : Option FileStat
  pathReadWritable : Bool
deriving Repr, DecidableEq

/-- The distinct failure kinds of the consistency checker, in the
order the source tests for them. -/
inductive CheckError where
  | parentUnstatable
  | parentNotDirectory
  | parentNotWritable
  | pathUnstatable
  | notRegularFile
  | notReadWritable
deriving Repr, DecidableEq

/-- `SimpleDatabase::Check`: if the backing path does not exist, the
parent must stat as a traversable-and-writable directory; if it exists,
it must stat as a readable-and-writable regular file. -/
def checkUsable (fs : FsView) : Except CheckError Unit :=
  if !fs.pathExists then
    match fs.parentStat with
    | none => .error .parentUnstatable
    | some st =>
      if !st.isDirectory then .error .parentNotDirectory
      else if !fs.parentTraversableWritable then .error .parentNotWritable
      else .ok ()
  else
    match fs.pathStat with
    | none => .error .pathUnstatable
    | some st =>
      if !st.isRegular then .error .notRegularFile
      else if !fs.pathReadWritable then .error .notReadWritable
      else .ok ()

/-- The mutable members of `SimpleDatabase` that the claims mention:
the configured backing path, the tree root, and the recorded
modification time (`time_t`, 0 = epoch/unset).  States where no tree
exists are represented by not having a `SimpleDatabase` at all
(`Except`-level failure), mirroring the freed/unopened object. -/
structure SimpleDatabase where
  path : String
  root : Directory
  mtime : Nat
deriving Repr

def isErr {ε α : Type} : Except ε α → Bool
  | .error _ => true
  | .ok _ => false

/-- Outcome of one `Load` attempt, abstracting `fopen` and the external
codec `db_load_internal`: the open can fail, the decode can fail leaving
an arbitrary partially built tree, or the decode succeeds producing a
tree, together with the mtime observed by the subsequent `stat` (none if
that `stat` fails). -/
inductive LoadOutcome where
  | fileOpenFailed
  | decodeFailed (brokenTree : Directory)
  | decoded (tree : Directory) (statMtime : Option Nat)
deriving Repr

def LoadOutcome.fails : LoadOutcome → Bool
  | .decoded _ _ => false
  | _ => true

inductive LoadError where
  | loadOpenFailed
  | parseFailed
deriving Repr, DecidableEq

/-- `SimpleDatabase::Load`: open the backing file, decode into the root
in place, and on success record the file's on-disk mtime (skipping the
update when the trailing `stat` fails). -/
def loadDB (db : SimpleDatabase) (out : LoadOutcome) :
    Except LoadError Unit × SimpleDatabase :=
  match out with
  | .fileOpenFailed => (.error .loadOpenFailed, db)
  | .decodeFailed t => (.error .parseFailed, { db with root := t })
  | .decoded t sm =>
    (.ok (),
     { db with
       root := t
       mtime := (match sm with | some m => m | none => db.mtime) })

/-- `SimpleDatabase::Open`: fresh empty root, mtime 0, then `Load`; on
load failure free the tree, log the load error as a warning (the
returned Bool records that a warning was emitted), run `Check`, and
either propagate the checker's error with no tree, or substitute a fresh
empty root and succeed. -/
def openDB (p : String) (out : LoadOutcome) (fs : FsView) :
    Except CheckError SimpleDatabase × Bool :=
  let db0 : SimpleDatabase := { path := p, root := Directory.newRoot, mtime := 0 }
  match loadDB db0 out with
  | (.ok _, db1) => (.ok db1, false)
  | (.error _, db1) =>
    match checkUsable fs with
    | .error e => (.error e, true)
    | .ok _ => (.ok { db1 with root := Directory.newRoot }, true)

/-- `SimpleDatabase::Check` as the const method on the object: it only
inspects the filesystem and returns the object's state untouched (the
source method is `const` and assigns no member). -/
def checkMethod (db : SimpleDatabase) (fs : FsView) :
    Except CheckError Unit × SimpleDatabase :=
  (checkUsable fs, db)

/-- Splits a slash-separated uri into segments; the empty uri has no
segments (it names the root). -/
def splitSegsAux : List Char → List Char → List String
  | [], acc => [String.mk acc.reverse]
  | c :: cs, acc =>
    if c = '/' then String.mk acc.reverse :: splitSegsAux cs []
    else splitSegsAux cs (c :: acc)

def splitUri (s : String) : List String :=
  if s = "" then [] else splitSegsAux s.data []

def findChildDir (cs : List Directory) (seg : String) : Option Directory :=
  cs.find? (fun c => c.dirName = seg)

/-- Modelled from the spec: `directory_lookup_directory` of `directory.c`
(not in the snapshot) — descend from the root following exact name
matches, none if any segment is missing; the empty segment list yields
the current directory. -/
def lookupDirSegs : Directory → List String → Option Directory
  | d, [] => some d
  | d, seg :: rest =>
    match findChildDir d.children seg with
    | none => none
    | some c => lookupDirSegs c rest

def directoryLookupDirectory (root : Directory) (uri : String) : Option Directory :=
  lookupDirSegs root (splitUri uri)

/-- Modelled from the spec: `directory_lookup_song` of `directory.c`
(not in the snapshot) — resolve the containing directory by stripping
the final segment, then find an exact song-uri match among its songs. -/
def directoryLookupSong (root : Directory) (uri : String) : Option Song :=
  let segs := splitUri uri
  match segs.getLast? with
  | none => none
  | some base =>
    match lookupDirSegs root segs.dropLast with
    | none => none
    | some d => d.songs.find? (fun s => s.uri = base)

/-- Query-level errors of `GetSong`/`Visit` (`db_error.h`): NotFound, or
an error produced by a caller-supplied visitor. -/
inductive DbError where
  | notFound (msg : String)
  | visitor (msg : String)
deriving Repr, DecidableEq

/-- `SimpleDatabase::GetSong`: lock, look the song up, unlock; a miss
sets a NotFound error alongside the null result. -/
def getSong (root : Directory) (uri : String) : Option Song × Option DbError :=
  match directoryLookupSong root uri with
  | none => (none, some (DbError.notFound ("No such song: " ++ uri)))
  | some s => (some s, none)

/-- Modelled from the spec: the selection descriptor
(`DatabaseSelection.hxx` is not in the snapshot) — a target uri, a
recursion flag, and an optional song predicate (`locate_list_song_match`
abstracted to a Bool-valued predicate). -/
structure DatabaseSelection where
  uri : String
  recursive : Bool
  matchPred : Option (Song → Bool)

def songMatches (m : Option (Song → Bool)) (s : Song) : Bool :=
  match m with
  | none => true
  | some p => p s

/-- A visitor either succeeds or fails with its own error message. -/
abbrev VisitDirectory := Directory → Except String Unit
abbrev VisitSong := Song → Except String Unit
abbrev VisitPlaylist := String → Except String Unit

/-- One recorded visitor invocation, in invocation order. -/
inductive VisitEvent where
  | dir (dname : String)
  | song (uri : String)
  | playlist (pname : String)
deriving Repr, DecidableEq

def invokeSongVisitor (m : Option (Song → Bool)) (vs : Option VisitSong) :
    List Song → Except String Unit × List VisitEvent
  | [] => (.ok (), [])
  | s :: ss =>
    if songMatches m s then
      match vs with
      | some f =>
        match f s with
        | .error e => (.error e, [.song s.uri])
        | .ok _ =>
          match invokeSongVisitor m vs ss with
          | (r, evs) => (r, .song s.uri :: evs)
      | none => invokeSongVisitor m vs ss
    else invokeSongVisitor m vs ss

def invokePlaylistVisitor (vp : Option VisitPlaylist) :
    List String → Except String Unit × List VisitEvent
  | [] => (.ok (), [])
  | p :: ps =>
    match vp with
    | some f =>
      match f p with
      | .error e => (.error e, [.playlist p])
      | .ok _ =>
        match invokePlaylistVisitor vp ps with
        | (r, evs) => (r, .playlist p :: evs)
    | none => invokePlaylistVisitor vp ps

mutual
/-- Modelled from the spec: `directory::Walk` of `directory.c` (not in
the snapshot) — visit child directories (descending only when
recursive), then matching songs, then playlists, aborting the whole walk
at the first visitor failure. -/
def walkDir (rec : Bool) (m : Option (Song → Bool))
    (vd : Option VisitDirectory) (vs : Option VisitSong) (vp : Option VisitPlaylist) :
    Directory → Except String Unit × List VisitEvent
  | .node _ cs ss ps =>
    match walkChildren rec m vd vs vp cs with
    | (.error e, evs) => (.error e, evs)
    | (.ok _, evs1) =>
      match invokeSongVisitor m vs ss with
      | (.error e, evs2) => (.error e, evs1 ++ evs2)
      | (.ok _, evs2) =>
        match invokePlaylistVisitor vp ps with
        | (r, evs3) => (r, evs1 ++ evs2 ++ evs3)
def walkChildren (rec : Bool) (m : Option (Song → Bool))
    (vd : Option VisitDirectory) (vs : Option VisitSong) (vp : Option VisitPlaylist) :
    List Directory → Except String Unit × List VisitEvent
  | [] => (.ok (), [])
  | c :: cs =>
    match (match vd with
           | some f => (f c, [VisitEvent.dir c.dirName])
           | none => (.ok (), [])) with
    | (.error e, evs) => (.error e, evs)
    | (.ok _, evs1) =>
      if rec then
        match walkDir rec m vd vs vp c with
        | (.error e, evs2) => (.error e, evs1 ++ evs2)
        | (.ok _, evs2) =>
          match walkChildren rec m vd vs vp cs with
          | (r, evs3) => (r, evs1 ++ evs2 ++ evs3)
      else
        match walkChildren rec m vd vs vp cs with
        | (r, evs3) => (r, evs1 ++ evs3)
end

/-- `SimpleDatabase::Visit`: resolve the selection's uri to a directory;
if that fails, fall back to a single-song visit or NotFound; if it
succeeds, visit the target itself first when recursive, then walk its
contents under the lock.  The event list records every visitor
invocation in order. -/
def visitDB (root : Directory) (sel : DatabaseSelection)
    (vd : Option VisitDirectory) (vs : Option VisitSong) (vp : Option VisitPlaylist) :
    Except DbError Unit × List VisitEvent :=
  match directoryLookupDirectory root sel.uri with
  | none =>
    match vs with
    | some f =>
      match directoryLookupSong root sel.uri with
      | some sg =>
        if songMatches sel.matchPred sg then
          ((f sg).mapError DbError.visitor, [VisitEvent.song sg.uri])
        else (.error (DbError.notFound "No such directory"), [])
      | none => (.error (DbError.notFound "No such directory"), [])
    | none => (.error (DbError.notFound "No such directory"), [])
  | some d =>
    match (if sel.recursive then
             match vd with
             | some f => (f d, [VisitEvent.dir d.dirName])
             | none => ((.ok () : Except String Unit), ([] : List VisitEvent))
           else ((.ok () : Except String Unit), ([] : List VisitEvent))) with
    | (.error e, evs) => (.error (DbError.visitor e), evs)
    | (.ok _, evs) =>
      match walkDir sel.recursive sel.matchPred vd vs vp d with
      | (r, evs2) => (r.mapError DbError.visitor, evs ++ evs2)

def isLeafEmptyDir : Directory → Bool
  | .node _ cs ss ps => cs.isEmpty && ss.isEmpty && ps.isEmpty

mutual
/-- Modelled from the spec: `directory_prune_empty` of `directory.c`
(not in the snapshot) — bottom-up removal of every directory that,
after its own descendants have been pruned, contains no songs, no
playlists and no child directories. -/
def pruneDir : Directory → Directory
  | .node n cs ss ps => .node n (pruneChildren cs) ss ps
def pruneChildren : List Directory → List Directory
  | [] => []
  | c :: cs =>
    let c' := pruneDir c
    if isLeafEmptyDir c' then pruneChildren cs else c' :: pruneChildren cs
end

mutual
/-- True when no directory strictly below the argument is leaf-empty. -/
def noLeafEmptyDirs : Directory → Bool
  | .node _ cs _ _ => noLeafEmptyDirsList cs
def noLeafEmptyDirsList : List Directory → Bool
  | [] => true
  | c :: cs => !isLeafEmptyDir c && noLeafEmptyDirs c && noLeafEmptyDirsList cs
end

def insertDirByName (c : Directory) : List Directory → List Directory
  | [] => [c]
  | d :: ds => if c.dirName ≤ d.dirName then c :: d :: ds else d :: insertDirByName c ds

def insertSongByUri (s : Song) : List Song → List Song
  | [] => [s]
  | t :: ts => if s.uri ≤ t.uri then s :: t :: ts else t :: insertSongByUri s ts

def insertPlaylistByName (p : String) : List String → List String
  | [] => [p]
  | q :: qs => if p ≤ q then p :: q :: qs else q :: insertPlaylistByName p qs

def sortSongs : List Song → List Song
  | [] => []
  | s :: ss => insertSongByUri s (sortSongs ss)

def sortPlaylists : List String → List String
  | [] => []
  | p :: ps => insertPlaylistByName p (sortPlaylists ps)

mutual
/-- Modelled from the spec: `directory_sort` of `directory.c` (not in
the snapshot) — recursively sort every directory's child collections
into a canonical order (subdirectories by name; a deterministic order
for songs and playlists, here by uri and by name). -/
def sortDir : Directory → Directory
  | .node n cs ss ps => .node n (sortChildren cs) (sortSongs ss) (sortPlaylists ps)
def sortChildren : List Directory → List Directory
  | [] => []
  | c :: cs => insertDirByName (sortDir c) (sortChildren cs)
end

/-- Outcome of the file phase of one `Save`: `fopen` can fail, the
stream can be in error after `db_save_internal`, or the write succeeds,
with the mtime observed by the trailing `stat` (none if it fails). -/
inductive SaveOutcome where
  | fileOpenFailed
  | writeStreamError
  | written (statMtime : Option Nat)
deriving Repr

inductive SaveError where
  | saveOpenFailed
  | writeFailed
deriving Repr, DecidableEq

/-- The observable steps of one `Save`, in program order: the lock
domain operations, the tree passes, and the file operations. -/
inductive SaveEv where
  | lockEv
  | pruneEv
  | sortEv
  | unlockEv
  | fopenEv
  | writeEv
  | fcloseEv
  | statEv
deriving Repr, DecidableEq

def isFileEv : SaveEv → Bool
  | .fopenEv => true
  | .writeEv => true
  | .fcloseEv => true
  | .statEv => true
  | _ => false

/-- `SimpleDatabase::Save`: lock, prune, sort, unlock, then open the
backing file for writing, encode, and on success refresh the recorded
mtime from the file's new on-disk mtime.  The event list records the
steps in program order. -/
def saveDB (db : SimpleDatabase) (out : SaveOutcome) :
    Except SaveError Unit × SimpleDatabase × List SaveEv :=
  let db1 := { db with root := sortDir (pruneDir db.root) }
  let pre : List SaveEv := [.lockEv, .pruneEv, .sortEv, .unlockEv]
  match out with
  | .fileOpenFailed => (.error .saveOpenFailed, db1, pre ++ [.fopenEv])
  | .writeStreamError =>
    (.error .writeFailed, db1, pre ++ [.fopenEv, .writeEv, .fcloseEv])
  | .written sm =>
    (.ok (),
     { db1 with mtime := (match sm with | some m => m | none => db1.mtime) },
     pre ++ [.fopenEv, .writeEv, .fcloseEv, .statEv])

/-- C5: `checkUsable` returns Ok exactly when the backing path is absent
with a stat-able, directory-kind, traversable-and-writable parent, or
present as a stat-able, regular, readable-and-writable file; each
failing condition yields its distinct error kind, tested in the source's
order. -/
theorem checkUsable_characterization (fs : FsView) :
    (checkUsable fs = .ok () ↔
      ((fs.pathExists = false ∧ ∃ st, fs.parentStat = some st ∧
          st.isDirectory = true ∧ fs.parentTraversableWritable = true) ∨
       (fs.pathExists = true ∧ ∃ st, fs.pathStat = some st ∧
          st.isRegular = true ∧ fs.pathReadWritable = true))) ∧
    (checkUsable fs = .error .parentUnstatable ↔
      fs.pathExists = false ∧ fs.parentStat = none) ∧
    (checkUsable fs = .error .parentNotDirectory ↔
      fs.pathExists = false ∧ ∃ st, fs.parentStat = some st ∧ st.isDirectory = false) ∧
    (checkUsable fs = .error .parentNotWritable ↔
      fs.pathExists = false ∧ (∃ st, fs.parentStat = some st ∧ st.isDirectory = true) ∧
      fs.parentTraversableWritable = false) ∧
    (checkUsable fs = .error .pathUnstatable ↔
      fs.pathExists = true ∧ fs.pathStat = none) ∧
    (checkUsable fs = .error .notRegularFile ↔
      fs.pathExists = true ∧ ∃ st, fs.pathStat = some st ∧ st.isRegular = false) ∧
    (checkUsable fs = .error .notReadWritable ↔
      fs.pathExists = true ∧ (∃ st, fs.pathStat = some st ∧ st.isRegular = true) ∧
      fs.pathReadWritable = false) := by
  obtain ⟨pe, pst, ptw, fst, frw⟩ := fs
  cases pe <;> cases ptw <;> cases frw <;>
    rcases pst with _ | ⟨pd, pr⟩ <;>
    rcases fst with _ | ⟨fd, fr⟩ <;>
    first
      | (cases pd <;> cases pr <;> cases fd <;> cases fr <;> simp [checkUsable])
      | (cases pd <;> cases pr <;> simp [checkUsable])
      | (cases fd <;> cases fr <;> simp [checkUsable])
      | simp [checkUsable]

/-- C10: the `Check` method never modifies database state — the state it
returns is exactly the input state, and its verdict depends only on the
filesystem view, not on the tree root or the recorded mtime. -/
theorem checkMethod_is_pure (db : SimpleDatabase) (fs : FsView) :
    (checkMethod db fs).2 = db ∧
    (checkMethod db fs).1 = checkUsable fs ∧
    ∀ db' : SimpleDatabase, (checkMethod db' fs).1 = (checkMethod db fs).1 :=
  ⟨rfl, rfl, fun _ => rfl⟩

/-- C7: a successful `Load` that observes the backing file's on-disk
mtime `m` records exactly `m`, and a successful `Save` that observes the
file's new on-disk mtime `m` refreshes the recorded mtime to `m`. -/
theorem mtime_follows_file (db : SimpleDatabase) (t : Directory) (m : Nat) :
    ((loadDB db (LoadOutcome.decoded t (some m))).1 = .ok () ∧
     (loadDB db (LoadOutcome.decoded t (some m))).2.mtime = m) ∧
    ((saveDB db (SaveOutcome.written (some m))).1 = .ok () ∧
     (saveDB db (SaveOutcome.written (some m))).2.1.mtime = m) := by
  refine ⟨⟨rfl, rfl⟩, rfl, rfl⟩

/-- C1: Open fails iff the Load attempt fails and the consistency check
also fails; when Load fails but the check passes, Open succeeds with a
fresh empty root, reporting the load error only as a warning; a failing
Open propagates the checker's error and yields no database object. -/
theorem open_fallback_policy (p : String) (out : LoadOutcome) (fs : FsView) :
    (isErr (openDB p out fs).1 = true ↔
       out.fails = true ∧ isErr (checkUsable fs) = true) ∧
    (out.fails = true → checkUsable fs = .ok () →
       openDB p out fs =
         (.ok { path := p, root := Directory.newRoot, mtime := 0 }, true)) ∧
    (∀ e, (openDB p out fs).1 = .error e → checkUsable fs = .error e) := by
  cases out <;> cases h : checkUsable fs <;>
    simp [openDB, loadDB, LoadOutcome.fails, isErr, h]

/-- A filesystem view with an existing, regular, readable-and-writable
backing file: the checker accepts it. -/
def okFs : FsView :=
  { pathExists := true, parentStat := none, parentTraversableWritable := false,
    pathStat := some { isDirectory := false, isRegular := true },
    pathReadWritable := true }

theorem open_fallback_policy_witness :
    LoadOutcome.fails LoadOutcome.fileOpenFailed = true ∧
    checkUsable okFs = Except.ok () ∧
    openDB "mpd.db" LoadOutcome.fileOpenFailed okFs =
      (Except.ok { path := "mpd.db", root := Directory.newRoot, mtime := 0 }, true) :=
  ⟨rfl, rfl, (open_fallback_policy "mpd.db" LoadOutcome.fileOpenFailed okFs).2.1 rfl rfl⟩

/-- C9: a failed Load never modifies the recorded modification time, and
a successful Open through the fallback-empty path yields a database
whose recorded modification time is still 0. -/
theorem load_failure_preserves_mtime (db : SimpleDatabase) (out : LoadOutcome)
    (p : String) (fs : FsView) :
    (isErr (loadDB db out).1 = true → (loadDB db out).2.mtime = db.mtime) ∧
    (out.fails = true → ∀ db', (openDB p out fs).1 = .ok db' → db'.mtime = 0) := by
  cases out <;> cases h : checkUsable fs <;>
    simp [loadDB, openDB, LoadOutcome.fails, isErr, h]

theorem load_failure_preserves_mtime_witness :
    isErr (loadDB { path := "mpd.db", root := Directory.newRoot, mtime := 42 }
      LoadOutcome.fileOpenFailed).1 = true ∧
    (loadDB { path := "mpd.db", root := Directory.newRoot, mtime := 42 }
      LoadOutcome.fileOpenFailed).2.mtime = 42 :=
  ⟨rfl, (load_failure_preserves_mtime
     { path := "mpd.db", root := Directory.newRoot, mtime := 42 }
     LoadOutcome.fileOpenFailed "mpd.db" okFs).1 rfl⟩

/-- C8: on a uri naming no song, GetSong returns no song together with a
NotFound error — never an empty-success result — and on a uri naming a
song it returns that song with no error. -/
theorem getSong_notFound (root : Directory) (uri : String) :
    (directoryLookupSong root uri = none →
       getSong root uri = (none, some (DbError.notFound ("No such song: " ++ uri)))) ∧
    (∀ s, directoryLookupSong root uri = some s → getSong root uri = (some s, none)) ∧
    ((getSong root uri).1 = none → (getSong root uri).2 ≠ none) := by
  cases h : directoryLookupSong root uri <;> simp [getSong, h]

/-- A small concrete tree: the root holds one subdirectory "a" which
holds one song "b" (full uri "a/b"). -/
def wRoot : Directory :=
  Directory.node "" [Directory.node "a" [] [Song.mk "b"] []] [] []

theorem getSong_notFound_witness :
    directoryLookupSong wRoot "nope" = none ∧
    getSong wRoot "nope" =
      (none, some (DbError.notFound ("No such song: " ++ "nope"))) :=
  ⟨rfl, (getSong_notFound wRoot "nope").1 rfl⟩

/-- C3: when the selection's uri resolves to no directory, Visit falls
back to the single-song case — if an onSong visitor exists, the uri
names a song, and the predicate is absent or satisfied, the visitor's
own result is returned; in every other such case Visit fails with
NotFound "No such directory". -/
theorem visit_song_fallback (root : Directory) (sel : DatabaseSelection)
    (vd : Option VisitDirectory) (vs : Option VisitSong) (vp : Option VisitPlaylist)
    (hnd : directoryLookupDirectory root sel.uri = none) :
    (∀ f sg, vs = some f → directoryLookupSong root sel.uri = some sg →
       songMatches sel.matchPred sg = true →
       visitDB root sel vd vs vp =
         ((f sg).mapError DbError.visitor, [VisitEvent.song sg.uri])) ∧
    ((vs = none ∨ directoryLookupSong root sel.uri = none ∨
      (∀ sg, directoryLookupSong root sel.uri = some sg →
         songMatches sel.matchPred sg = false)) →
       (visitDB root sel vd vs vp).1 =
         .error (DbError.notFound "No such directory")) := by
  constructor
  · intro f sg hvs hsg hm
    subst hvs
    simp [visitDB, hnd, hsg, hm]
  · intro hcase
    cases vs with
    | none => simp [visitDB, hnd]
    | some f =>
      rcases hcase with h | h | h
      · exact absurd h (by simp)
      · simp [visitDB, hnd, h]
      · cases hsg : directoryLookupSong root sel.uri with
        | none => simp [visitDB, hnd, hsg]
        | some sg => simp [visitDB, hnd, hsg, h sg hsg]

theorem visit_song_fallback_witness :
    directoryLookupDirectory wRoot "a/b" = none ∧
    visitDB wRoot { uri := "a/b", recursive := false, matchPred := none }
        none (some fun _ => Except.ok ()) none =
      (Except.ok (), [VisitEvent.song "b"]) := by
  refine ⟨rfl, ?_⟩
  have h := (visit_song_fallback wRoot
      { uri := "a/b", recursive := false, matchPred := none }
      none (some fun _ => Except.ok ()) none rfl).1
    (fun _ => Except.ok ()) (Song.mk "b") rfl rfl rfl
  simpa [Except.mapError] using h

/-- C4: when the selection's uri resolves to a directory, the selection
is recursive and an onDirectory visitor exists, Visit invokes it on the
target directory before any other visitor invocation, and a failure of
that first invocation is returned at once with no further visitor
invoked. -/
theorem visit_target_directory_first (root : Directory) (sel : DatabaseSelection)
    (vs : Option VisitSong) (vp : Option VisitPlaylist)
    (f : VisitDirectory) (d : Directory)
    (hd : directoryLookupDirectory root sel.uri = some d)
    (hrec : sel.recursive = true) :
    (∃ rest, (visitDB root sel (some f) vs vp).2 = VisitEvent.dir d.dirName :: rest) ∧
    (∀ e, f d = .error e →
       visitDB root sel (some f) vs vp =
         (.error (DbError.visitor e), [VisitEvent.dir d.dirName])) := by
  cases hf : f d with
  | error e =>
    constructor
    · exact ⟨[], by simp [visitDB, hd, hrec, hf]⟩
    · intro e' he'
      injection he' with h
      subst h
      simp [visitDB, hd, hrec, hf]
  | ok u =>
    constructor
    · rcases hw : walkDir true sel.matchPred (some f) vs vp d with ⟨r, evs2⟩
      refine ⟨evs2, ?_⟩
      simp [visitDB, hd, hrec, hf, hw]
    · intro e' he'
      exact absurd he' (by simp)

theorem visit_target_directory_first_witness :
    directoryLookupDirectory wRoot "" = some wRoot ∧
    visitDB wRoot { uri := "", recursive := true, matchPred := none }
        (some fun _ => Except.error "boom") none none =
      (Except.error (DbError.visitor "boom"), [VisitEvent.dir ""]) := by
  refine ⟨rfl, ?_⟩
  have h := (visit_target_directory_first wRoot
      { uri := "", recursive := true, matchPred := none }
      none none (fun _ => Except.error "boom") wRoot rfl rfl).2 "boom" rfl
  simpa [wRoot, Directory.dirName] using h

mutual
theorem pruneDir_noLeafEmpty (d : Directory) :
    noLeafEmptyDirs (pruneDir d) = true := by
  match d with
  | .node n cs ss ps =>
    simp only [pruneDir, noLeafEmptyDirs]
    exact pruneChildren_noLeafEmpty cs
theorem pruneChildren_noLeafEmpty (cs : List Directory) :
    noLeafEmptyDirsList (pruneChildren cs) = true := by
  match cs with
  | [] => simp [pruneChildren, noLeafEmptyDirsList]
  | c :: cs =>
    have h1 := pruneDir_noLeafEmpty c
    have h2 := pruneChildren_noLeafEmpty cs
    by_cases he : isLeafEmptyDir (pruneDir c) <;>
      simp [pruneChildren, noLeafEmptyDirsList, he, h1, h2]
end

/-- C6: every Save first runs, inside the lock, the prune pass and then
the sort pass — the event trace always begins lock, prune, sort, unlock,
and everything after the unlock is file I/O — so the backing file is
never touched while the lock is held; the tree Save goes on to write is
the sorted pruning of the previous root, and pruning leaves no
directory below the root that has no songs, no playlists and no child
directories. -/
theorem save_lock_discipline (db : SimpleDatabase) (out : SaveOutcome) :
    (∃ rest, (saveDB db out).2.2 =
        [SaveEv.lockEv, SaveEv.pruneEv, SaveEv.sortEv, SaveEv.unlockEv] ++ rest ∧
        rest.all isFileEv = true) ∧
    (saveDB db out).2.1.root = sortDir (pruneDir db.root) ∧
    noLeafEmptyDirs (pruneDir db.root) = true := by
  refine ⟨?_, ?_, pruneDir_noLeafEmpty db.root⟩
  · cases out with
    | fileOpenFailed => exact ⟨[SaveEv.fopenEv], rfl, rfl⟩
    | writeStreamError => exact ⟨[SaveEv.fopenEv, SaveEv.writeEv, SaveEv.fcloseEv], rfl, rfl⟩
    | written sm =>
      exact ⟨[SaveEv.fopenEv, SaveEv.writeEv, SaveEv.fcloseEv, SaveEv.statEv], rfl, rfl⟩
  · cases out <;> rfl

/-- C2 counterexample: a root holding one empty subdirectory.  A Save
whose file open fails still prunes that subdirectory, so the tree left
behind by the failed Save differs from the tree before the call. -/
def cexDB : SimpleDatabase :=
  { path := "mpd.db",
    root := Directory.node "" [Directory.node "a" [] [] []] [] [],
    mtime := 7 }

theorem save_failure_not_intact :
    isErr (saveDB cexDB SaveOutcome.fileOpenFailed).1 = true ∧
    (saveDB cexDB SaveOutcome.fileOpenFailed).2.1.root ≠ cexDB.root := by
  refine ⟨rfl, ?_⟩
  simp [saveDB, cexDB, pruneDir, pruneChildren, sortDir, sortChildren,
        sortSongs, sortPlaylists, isLeafEmptyDir]

/-- C2 (amended): when Save fails, the tree left in memory is exactly
the pruned-and-sorted form of the pre-call tree — the prune and sort
passes complete in full before any file I/O, and the failed I/O causes
no further change; path and recorded mtime are unchanged. -/
theorem save_failure_leaves_pruned_sorted_tree (db : SimpleDatabase)
    (out : SaveOutcome) (h : isErr (saveDB db out).1 = true) :
    (saveDB db out).2.1 = { db with root := sortDir (pruneDir db.root) } := by
  cases out with
  | fileOpenFailed => rfl
  | writeStreamError => rfl
  | written sm => exact absurd h (by simp [saveDB, isErr])

theorem save_failure_leaves_pruned_sorted_tree_witness :
    isErr (saveDB cexDB SaveOutcome.fileOpenFailed).1 = true ∧
    (saveDB cexDB SaveOutcome.fileOpenFailed).2.1 =
      { cexDB with root := sortDir (pruneDir cexDB.root) } :=
  ⟨rfl, save_failure_leaves_pruned_sorted_tree cexDB SaveOutcome.fileOpenFailed rfl⟩
